import Mathlib

/-!
Verification of the `maybe-rc` crate: `MaybeRc<T>` (src/rc.rs), the
variant `MaybeRc<T>` of src/lib.rs, `MaybeArc<T>` (src/arc.rs), and
`try_new_cyclic_rc` (src/try_new_cyclic_rc.rs).

The embedding models one reference-counted allocation as a record `St`:
the raw strong count, the raw weak count (std convention: `Rc::new`
starts at strong = 1, weak = 1, with the initial weak unit held
collectively by all strong handles; this is the very convention the
source comments in rc.rs lines 53-57 track), the payload slot
(`none` models an uninitialized `MaybeUninit` slot, `some v` an
initialized one), a counter of how many times `T`'s destructor has run,
and whether the allocation has been freed.

Handles are not named individually: the observable behavior of any
`Weak<T>` handle to a given allocation depends only on the allocation
state (upgrade succeeds exactly when the strong count is positive and
yields the slot's current content), so clones of observer handles are
interchangeable, and handle traffic is modelled by the count effects of
each operation.
-/

/-- State of one reference-counted allocation (the heap block behind an
`Rc`/`Arc` control block plus payload slot). `strong`/`weakCnt` are the
raw counts of the std control block; `slot` is the payload
(`none` = uninitialized `MaybeUninit` bits); `dtors` counts invocations
of `T`'s destructor; `freed` records deallocation. -/
structure St (T : Type) where
  strong : Nat
  weakCnt : Nat
  slot : Option T
  dtors : Nat
  freed : Bool
deriving Repr, DecidableEq

/-- Allocation produced by `Rc::new(UnsafeCell::new(MaybeUninit::uninit()))`
(rc.rs line 54, lib.rs line 53, arc.rs line 54): strong = 1, weak = 1,
empty payload slot. -/
def rcNewUninit (T : Type) : St T :=
  { strong := 1, weakCnt := 1, slot := none, dtors := 0, freed := false }

/-- Count effect of `Rc::downgrade` / `Weak::clone`: one more raw weak
unit. The `std::mem::transmute` wrapped around the clone in
`MaybeRc::downgrade` (rc.rs line 66) changes only the handle's static
type, not the allocation. -/
def downgradeSt {T : Type} (s : St T) : St T :=
  { s with weakCnt := s.weakCnt + 1 }

/-- Dropping one `Weak` handle: the raw weak count decreases by one, and
the allocation is freed once it reaches zero (std frees the block when
the last weak unit dies; the strong handles' collective weak unit makes
`weakCnt = 0` imply `strong = 0`). A drop requires an existing handle,
so the count-zero case cannot arise and is mapped to the identity. -/
def dropWeakSt {T : Type} (s : St T) : St T :=
  match s.weakCnt with
  | 0 => s
  | w + 1 => { s with weakCnt := w, freed := s.freed || (w == 0 && s.strong == 0) }

/-- `Weak::upgrade`: if the strong count is positive it is incremented
and an owning handle to the (current) slot content is returned, else the
call returns `None` and leaves the allocation untouched. The first
component `some c` means the upgrade succeeded and the returned owning
handle points at slot content `c`; `none` means the upgrade failed. -/
def upgradeSt {T : Type} (s : St T) : Option (Option T) × St T :=
  if 0 < s.strong then (some s.slot, { s with strong := s.strong + 1 })
  else (none, s)

/-- `Rc::increment_strong_count` (rc.rs line 89, lib.rs line 86,
arc.rs line 89): raw strong count goes up by one, nothing else moves. -/
def incStrong {T : Type} (s : St T) : St T :=
  { s with strong := s.strong + 1 }

/-- Dropping one owning handle of type `Rc<T>` / `Arc<T>` (typed drop
glue): the strong count decreases; when it reaches zero the payload is
destructed as a `T` (destructor counter increments if the slot held a
value), the slot is dead, and the strong handles' collective weak unit
is released, possibly freeing the block. Requires an existing owning
handle, so the count-zero case is the identity. -/
def dropStrongT {T : Type} (s : St T) : St T :=
  match s.strong with
  | 0 => s
  | n + 1 =>
    if n = 0 then
      dropWeakSt { s with strong := 0, slot := none,
                          dtors := s.dtors + (if s.slot.isSome then 1 else 0) }
    else { s with strong := n }

/-- Dropping one owning handle typed at the uninitialized payload
(`Rc<UnsafeCell<MaybeUninit<T>>>`, e.g. the temporary strong handle in
`MaybeRc::new`, or `Rc::decrement_strong_count` at that pointer type,
rc.rs line 104): same count bookkeeping as `dropStrongT` but dropping a
`MaybeUninit` payload never runs `T`'s destructor. -/
def dropStrongUninit {T : Type} (s : St T) : St T :=
  match s.strong with
  | 0 => s
  | n + 1 =>
    if n = 0 then dropWeakSt { s with strong := 0 }
    else { s with strong := n }

/-- `Rc::clone` / `Arc::clone` on an owning handle: strong count up by
one. Requires an existing owning handle (`strong > 0`); otherwise no
such handle exists and the operation is the identity. -/
def cloneStrongSt {T : Type} (s : St T) : St T :=
  if 0 < s.strong then { s with strong := s.strong + 1 } else s

/-- The operations an API client can perform on the allocation through
the handles it holds: clone an observer handle (this is also the count
effect of `MaybeRc::downgrade` / `MaybeArc::downgrade`), drop an
observer handle, attempt an upgrade, clone an owning handle, drop an
owning handle. -/
inductive Op where
  | cloneWeak : Op
  | dropW : Op
  | upg : Op
  | cloneStrong : Op
  | dropStrong : Op
deriving Repr, DecidableEq

/-- Effect of one client operation on the allocation state. -/
def applyOp {T : Type} (s : St T) : Op → St T
  | Op.cloneWeak => downgradeSt s
  | Op.dropW => dropWeakSt s
  | Op.upg => (upgradeSt s).2
  | Op.cloneStrong => cloneStrongSt s
  | Op.dropStrong => dropStrongT s

/-- Effect of a sequence of client operations, first to last. -/
def applyOps {T : Type} (s : St T) (l : List Op) : St T :=
  l.foldl applyOp s

/-- `MaybeRc::new` (rc.rs lines 52-58): allocate with an empty slot
(strong = 1, weak = 1), downgrade to create the cell's own weak
(strong = 1, weak = 2), then drop the temporary strong handle
(strong = 0, weak = 1); the payload is `MaybeUninit`, so the drop runs
no destructor of `T`. -/
def MaybeRc.newSt (T : Type) : St T :=
  dropStrongUninit (downgradeSt (rcNewUninit T))

/-- `MaybeRc::materialize` (rc.rs lines 73-113): write `value` into the
slot, increment the strong count to make weak handles upgradable,
upgrade the cell's own weak and unwrap it (`none` result = the unwrap
panics), forget the cell's weak handle (no weak decrement: its weak
unit becomes the strong handles' collective reservation), decrement the
strong count back, and return the upgraded handle transmuted to
`Rc<T>`. Returns the pointed-to content of the returned owning handle
and the final allocation state, or `none` if the internal unwrap would
panic. -/
def MaybeRc.materializeSt {T : Type} (s : St T) (v : T) : Option (Option T × St T) :=
  let s1 : St T := { s with slot := some v }
  let s2 := incStrong s1
  match upgradeSt s2 with
  | (none, _) => none
  | (some r, s3) => some (r, dropStrongUninit s3)

/-- `MaybeArc::new` (arc.rs lines 52-58), same construction as
`MaybeRc::new` with atomic counts; count choreography is identical. -/
def MaybeArc.newSt (T : Type) : St T :=
  dropStrongUninit (downgradeSt (rcNewUninit T))

/-- `MaybeArc::materialize` (arc.rs lines 73-113), same step sequence as
`MaybeRc::materialize` over atomic counts. -/
def MaybeArc.materializeSt {T : Type} (s : St T) (v : T) : Option (Option T × St T) :=
  let s1 : St T := { s with slot := some v }
  let s2 := incStrong s1
  match upgradeSt s2 with
  | (none, _) => none
  | (some r, s3) => some (r, dropStrongUninit s3)

/-- `MaybeRc::new` of the lib.rs variant (lib.rs lines 52-56): same
allocate / downgrade / drop-temporary sequence. -/
def MaybeRcLib.newSt (T : Type) : St T :=
  dropStrongUninit (downgradeSt (rcNewUninit T))

/-- `MaybeRc::materialize` of the lib.rs variant (lib.rs lines 71-97):
write `value` into the slot, increment the strong count, and transmute
the cell's own weak handle directly into the returned `Rc<T>` (its weak
unit becomes the strong handles' collective reservation; no further
count traffic). No internal unwrap exists, so no panic point. -/
def MaybeRcLib.materializeSt {T : Type} (s : St T) (v : T) : Option T × St T :=
  let s1 : St T := { s with slot := some v }
  let s2 := incStrong s1
  (s2.slot, s2)

/-- Allocation state created inside `Rc::new_cyclic` before the data
function runs (try_new_cyclic_rc.rs line 40): empty slot, strong = 0,
weak = 1 (the init weak owned by `new_cyclic`). -/
def newCyclicAlloc (T : Type) : St T :=
  { strong := 0, weakCnt := 1, slot := none, dtors := 0, freed := false }

/-- `try_new_cyclic_rc` (try_new_cyclic_rc.rs lines 34-62), with the
caller-supplied constructor abstracted by its result `fres` and by the
sequence `fops` of handle operations it performs on the allocation
through the `Weak<T>` it is given. Steps: `Rc::new_cyclic` allocates
(strong = 0, weak = 1); the closure clones the init weak and retypes it
via into_raw/from_raw cast (weak = 2); the constructor runs (`fops`);
the closure-local weak is dropped at closure end; `new_cyclic` writes
the closure's `MaybeUninit` result into the slot (uninitialized bits on
the error path, the value on the success path), bumps strong 0 to 1 and
forgets its init weak. On `Err(e)`, the `Rc<MaybeUninit<T>>` named
`strong` is dropped by the early return (no `T` destructor) and `e` is
propagated; on `Ok(t)`, the handle is retyped to `Rc<T>` by an
into_raw/from_raw cast (no count change) and returned. The first
component is the result (carrying the returned owning handle's
pointed-to content on success); the second is the final allocation
state. -/
def tryNewCyclicRc {T E : Type} (fres : Except E T) (fops : List Op) :
    Except E (Option T) × St T :=
  let s1 := downgradeSt (newCyclicAlloc T)
  let s2 := applyOps s1 fops
  let s3 := dropWeakSt s2
  match fres with
  | Except.error e => (Except.error e, dropStrongUninit (incStrong s3))
  | Except.ok t =>
    let s4 := incStrong { s3 with slot := some t }
    (Except.ok s4.slot, s4)

/-- Pointer-level view of a `Weak` handle: the address of the
allocation it references. -/
structure WeakH (T : Type) where
  ptr : Nat
deriving Repr, DecidableEq

/-- Pointer-level view of an owning `Rc`/`Arc` handle. -/
structure RcH (T : Type) where
  ptr : Nat
deriving Repr, DecidableEq

/-- `Weak::clone` references the same allocation. -/
def WeakH.cloneH {T : Type} (w : WeakH T) : WeakH T := { ptr := w.ptr }

/-- `Weak::as_ptr`. -/
def WeakH.asPtr {T : Type} (w : WeakH T) : Nat := w.ptr

/-- A successful `Weak::upgrade` returns an owning handle to the same
allocation. -/
def WeakH.upgradeH {T : Type} (w : WeakH T) : RcH T := { ptr := w.ptr }

/-- `Rc::as_ptr` / `Arc::as_ptr`. -/
def RcH.asPtr {T : Type} (r : RcH T) : Nat := r.ptr

/-- Pointer-level view of the `MaybeRc`/`MaybeArc` struct: it wraps
exactly one weak handle (rc.rs line 47). -/
structure MaybeRcH (T : Type) where
  weak : WeakH T

/-- Pointer-level `MaybeRc::downgrade` (rc.rs lines 64-68):
`transmute(self.weak.clone())`; the transmute changes only the handle's
static type, so the returned observer handle carries the address of
`self.weak`'s allocation. -/
def MaybeRcH.downgradeH {T : Type} (c : MaybeRcH T) : WeakH T :=
  c.weak.cloneH

/-- Pointer-level `MaybeRc::materialize` (rc.rs lines 73-113): the
returned `Rc<T>` is `self.weak.upgrade()` transmuted, hence carries the
address of `self.weak`'s allocation. -/
def MaybeRcH.materializeH {T : Type} (c : MaybeRcH T) : RcH T :=
  c.weak.upgradeH

/-- Pointer-level view of the `MaybeArc` struct (arc.rs line 47): it
wraps exactly one weak handle. -/
structure MaybeArcH (T : Type) where
  weak : WeakH T

/-- Pointer-level `MaybeArc::downgrade` (arc.rs lines 64-68):
`transmute(self.weak.clone())`. -/
def MaybeArcH.downgradeH {T : Type} (c : MaybeArcH T) : WeakH T :=
  c.weak.cloneH

/-- Pointer-level `MaybeArc::materialize` (arc.rs lines 73-113): the
returned `Arc<T>` is `self.weak.upgrade()` transmuted. -/
def MaybeArcH.materializeH {T : Type} (c : MaybeArcH T) : RcH T :=
  c.weak.upgradeH

/-- Pointer-level `try_new_cyclic_rc`: given the address of the
`new_cyclic` allocation, the `Weak<T>` handed to the constructor is
`weak.clone().into_raw().cast()` reconstructed (same address), and the
returned `Rc<T>` is `Rc::into_raw(strong).cast()` reconstructed (same
address). Returns the pair (constructor's weak handle, returned owning
handle). -/
def tryNewCyclicPtrs (T : Type) (p : Nat) : WeakH T × RcH T :=
  (WeakH.cloneH { ptr := p }, RcH.mk p)

/-- Operations of a full client program against one cell: the handle
operations plus consuming the cell by `materialize(v)`. -/
inductive TOp (T : Type) where
  | base : Op → TOp T
  | mat : T → TOp T

/-- Observation produced by one program step: nothing observable, an
upgrade outcome (with the returned handle's pointed-to content on
success), a materialize result (the returned handle's pointed-to
content), or an abort of the program at a panic point. -/
inductive Obs (T : Type) where
  | quiet : Obs T
  | upgraded : Option (Option T) → Obs T
  | materialized : Option T → Obs T
  | aborted : Obs T
deriving Repr, DecidableEq

/-- One step of a client program, parametrized by the `materialize`
implementation `m` of the variant under test. -/
def stepVar {T : Type} (m : St T → T → Option (Option T × St T)) (s : St T) :
    TOp T → Obs T × Option (St T)
  | TOp.base Op.upg =>
    (Obs.upgraded (upgradeSt s).1, some (upgradeSt s).2)
  | TOp.base o => (Obs.quiet, some (applyOp s o))
  | TOp.mat v =>
    match m s v with
    | none => (Obs.aborted, none)
    | some (r, s2) => (Obs.materialized r, some s2)

/-- Run of a client program from a state (`none` = already aborted):
returns the list of observations and the final state. -/
def runVar {T : Type} (m : St T → T → Option (Option T × St T)) :
    Option (St T) → List (TOp T) → List (Obs T) × Option (St T)
  | os, [] => ([], os)
  | none, _ :: _ => ([], none)
  | some s, t :: ts =>
    let p := stepVar m s t
    let q := runVar m p.2 ts
    (p.1 :: q.1, q.2)

/-- While the strong count is zero, no client operation can change the
strong count, the slot, or the destructor counter: observer-handle
traffic only moves the weak count, failed upgrades are inert, and no
owning handle exists to clone or drop. -/
theorem applyOp_of_strong_zero {T : Type} (s : St T) (o : Op) (h : s.strong = 0) :
    (applyOp s o).strong = 0 ∧ (applyOp s o).slot = s.slot ∧
      (applyOp s o).dtors = s.dtors := by
  cases o with
  | cloneWeak => simp [applyOp, downgradeSt, h]
  | dropW =>
    simp only [applyOp, dropWeakSt]
    cases s.weakCnt with
    | zero => simp [h]
    | succ w => simp [h]
  | upg => simp [applyOp, upgradeSt, h]
  | cloneStrong => simp [applyOp, cloneStrongSt, h]
  | dropStrong => simp [applyOp, dropStrongT, h]

/-- Iterated form of `applyOp_of_strong_zero` over a whole operation
sequence. -/
theorem applyOps_of_strong_zero {T : Type} (l : List Op) (s : St T) (h : s.strong = 0) :
    (applyOps s l).strong = 0 ∧ (applyOps s l).slot = s.slot ∧
      (applyOps s l).dtors = s.dtors := by
  induction l generalizing s with
  | nil => exact ⟨h, rfl, rfl⟩
  | cons o l ih =>
    have h1 := applyOp_of_strong_zero s o h
    have h2 := ih (applyOp s o) h1.1
    exact ⟨h2.1, h2.2.1.trans h1.2.1, h2.2.2.trans h1.2.2⟩

/-- While the strong count is zero, every upgrade attempt returns
`None`. -/
theorem upgradeSt_of_strong_zero {T : Type} (s : St T) (h : s.strong = 0) :
    (upgradeSt s).1 = none := by
  simp [upgradeSt, h]

/-- When the allocation is live with slot content `v`, an upgrade
succeeds and the returned owning handle points at `v`. -/
theorem upgradeSt_of_live {T : Type} (s : St T) (v : T)
    (h1 : 0 < s.strong) (h2 : s.slot = some v) :
    (upgradeSt s).1 = some (some v) := by
  simp [upgradeSt, if_pos h1, h2]

/-- Dropping a weak handle never changes the strong count, the slot, or
the destructor counter. -/
theorem dropWeakSt_preserves {T : Type} (s : St T) :
    (dropWeakSt s).strong = s.strong ∧ (dropWeakSt s).slot = s.slot ∧
      (dropWeakSt s).dtors = s.dtors := by
  simp only [dropWeakSt]
  cases s.weakCnt <;> simp

/-- The error path of `try_new_cyclic_rc` after the constructor: the
strong count briefly becomes 1 inside `new_cyclic` and the early-return
drop of the `Rc<MaybeUninit<T>>` brings it back to 0, without touching
the slot or running any destructor of `T`. -/
theorem errorPath_state {T : Type} (s : St T) (h : s.strong = 0) :
    (dropStrongUninit (incStrong s)).strong = 0 ∧
      (dropStrongUninit (incStrong s)).slot = s.slot ∧
      (dropStrongUninit (incStrong s)).dtors = s.dtors := by
  simp only [incStrong, dropStrongUninit, h]
  exact dropWeakSt_preserves _

/-- Any client operation other than dropping an owning handle keeps the
allocation live and the slot content intact. -/
theorem applyOp_keeps_live {T : Type} (s : St T) (v : T) (o : Op)
    (ho : o ≠ Op.dropStrong) (h1 : 0 < s.strong) (h2 : s.slot = some v) :
    0 < (applyOp s o).strong ∧ (applyOp s o).slot = some v := by
  cases o with
  | cloneWeak => simpa [applyOp, downgradeSt] using ⟨h1, h2⟩
  | dropW =>
    simp only [applyOp, dropWeakSt]
    cases s.weakCnt with
    | zero => exact ⟨h1, h2⟩
    | succ w => simpa using ⟨h1, h2⟩
  | upg =>
    simp only [applyOp, upgradeSt, if_pos h1]
    exact ⟨Nat.succ_pos _, h2⟩
  | cloneStrong =>
    simp only [applyOp, cloneStrongSt, if_pos h1]
    exact ⟨Nat.succ_pos _, h2⟩
  | dropStrong => exact absurd rfl ho

/-- Iterated form of `applyOp_keeps_live` over a sequence containing no
owning-handle drop. -/
theorem applyOps_keeps_live {T : Type} (l : List Op) (s : St T) (v : T)
    (hl : ∀ o ∈ l, o ≠ Op.dropStrong) (h1 : 0 < s.strong) (h2 : s.slot = some v) :
    0 < (applyOps s l).strong ∧ (applyOps s l).slot = some v := by
  induction l generalizing s with
  | nil => exact ⟨h1, h2⟩
  | cons o l ih =>
    have h3 := applyOp_keeps_live s v o (hl o (List.mem_cons_self o l)) h1 h2
    exact ih (applyOp s o) (fun o2 hm => hl o2 (List.mem_cons_of_mem o hm)) h3.1 h3.2

/-- Closed form of `MaybeRc::materialize`: from any allocation state it
returns the owning handle pointing at `v`, with the strong count up by
one and the slot initialized to `v`; the internal unwrap never fails. -/
theorem materializeSt_rc_eq {T : Type} (s : St T) (v : T) :
    MaybeRc.materializeSt s v =
      some (some v, { s with strong := s.strong + 1, slot := some v }) := by
  simp only [MaybeRc.materializeSt, incStrong, upgradeSt]
  rw [if_pos (Nat.succ_pos s.strong)]
  simp [dropStrongUninit]

/-- Closed form of the lib.rs `MaybeRc::materialize`: identical final
state and returned content. -/
theorem materializeSt_lib_eq {T : Type} (s : St T) (v : T) :
    MaybeRcLib.materializeSt s v =
      (some v, { s with strong := s.strong + 1, slot := some v }) := by
  simp [MaybeRcLib.materializeSt, incStrong]

/-- `MaybeArc::materialize` performs the same step sequence as
`MaybeRc::materialize`. -/
theorem materializeSt_arc_eq_rc {T : Type} :
    (MaybeArc.materializeSt : St T → T → Option (Option T × St T)) =
      MaybeRc.materializeSt := rfl

/-- C2: for every cell created by `MaybeRc::new` / `MaybeArc::new` on
which materialize has not been called, every observer handle derived
via downgrade (and every clone of such a handle) returns `None` from
`upgrade()`, for any number of clones and any order of
downgrade/clone/upgrade calls (any client operation sequence `l`). -/
theorem claim_C2 (T : Type) (l : List Op) :
    (upgradeSt (applyOps (MaybeRc.newSt T) l)).1 = none ∧
      (upgradeSt (applyOps (MaybeArc.newSt T) l)).1 = none :=
  ⟨upgradeSt_of_strong_zero _ ((applyOps_of_strong_zero l _ rfl).1),
   upgradeSt_of_strong_zero _ ((applyOps_of_strong_zero l _ rfl).1)⟩

/-- C8: immediately after `new()` returns, the allocation has strong
count 0 and weak count exactly 1 (the cell's own internal reservation);
and while no owning handle has ever been produced (any client operation
sequence — upgrades all fail, so none produces an owner), the strong
count stays exactly 0. Both for `MaybeRc` and `MaybeArc`. -/
theorem claim_C8 (T : Type) (l : List Op) :
    (MaybeRc.newSt T).strong = 0 ∧ (MaybeRc.newSt T).weakCnt = 1 ∧
      (MaybeArc.newSt T).strong = 0 ∧ (MaybeArc.newSt T).weakCnt = 1 ∧
      (applyOps (MaybeRc.newSt T) l).strong = 0 ∧
      (applyOps (MaybeArc.newSt T) l).strong = 0 :=
  ⟨rfl, rfl, rfl, rfl,
   (applyOps_of_strong_zero l _ rfl).1, (applyOps_of_strong_zero l _ rfl).1⟩

/-- C1: after `materialize(v)` completes on a cell created by `new`
(with any observer-handle traffic `l1` before materialization), the
returned owning handle points at `v`, and `upgrade()` on any observer
handle — derived before or after materialization, or any clone,
reached by any further operation sequence `l2` that does not drop an
owning handle — returns an owning handle whose pointed-to value equals
`v`; `MaybeArc` behaves identically. -/
theorem claim_C1 (T : Type) (v : T) (l1 l2 : List Op)
    (hl2 : ∀ o ∈ l2, o ≠ Op.dropStrong) (r : Option T) (s1 : St T)
    (hm : MaybeRc.materializeSt (applyOps (MaybeRc.newSt T) l1) v = some (r, s1)) :
    r = some v ∧ (upgradeSt (applyOps s1 l2)).1 = some (some v) ∧
      MaybeArc.materializeSt (applyOps (MaybeArc.newSt T) l1) v = some (r, s1) := by
  have hm0 := hm
  rw [materializeSt_rc_eq] at hm
  have hr : some v = r := congrArg Prod.fst (Option.some.inj hm)
  have hs : ({ applyOps (MaybeRc.newSt T) l1 with
      strong := (applyOps (MaybeRc.newSt T) l1).strong + 1, slot := some v } : St T) = s1 :=
    congrArg Prod.snd (Option.some.inj hm)
  have h1 : 0 < s1.strong := by rw [← hs]; exact Nat.succ_pos _
  have h2 : s1.slot = some v := by rw [← hs]
  have hlive := applyOps_keeps_live l2 s1 v hl2 h1 h2
  refine ⟨hr.symm, upgradeSt_of_live _ v hlive.1 hlive.2, ?_⟩
  show MaybeRc.materializeSt (applyOps (MaybeRc.newSt T) l1) v = some (r, s1)
  exact hm0

/-- C1 witness at concrete inputs: a cell holding one extra observer
handle, materialized with 42, upgrades to 42 after a further upgrade
call. -/
theorem claim_C1_witness :
    (some 42 : Option Nat) = some 42 ∧
      (upgradeSt (applyOps
        ({ strong := 1, weakCnt := 2, slot := some 42, dtors := 0, freed := false } : St Nat)
        [Op.upg])).1 = some (some 42) ∧
      MaybeArc.materializeSt (applyOps (MaybeArc.newSt Nat) [Op.cloneWeak]) 42 =
        some (some 42,
          { strong := 1, weakCnt := 2, slot := some 42, dtors := 0, freed := false }) :=
  claim_C1 Nat 42 [Op.cloneWeak] [Op.upg] (by decide) (some 42)
    { strong := 1, weakCnt := 2, slot := some 42, dtors := 0, freed := false } (by decide)

/-- C5: once a materialized cell's owning handles have decayed to none
(the client operation sequence `l2` after materialization brings the
strong count to 0, i.e. the last owning handle was dropped), every
subsequent `upgrade()` call on any remaining observer handle, after any
further operation sequence `l3`, returns `None`, permanently. -/
theorem claim_C5 (T : Type) (v : T) (l1 l2 l3 : List Op) (r : Option T) (s1 : St T)
    (_hm : MaybeRc.materializeSt (applyOps (MaybeRc.newSt T) l1) v = some (r, s1))
    (hdrop : (applyOps s1 l2).strong = 0) :
    (upgradeSt (applyOps (applyOps s1 l2) l3)).1 = none :=
  upgradeSt_of_strong_zero _ ((applyOps_of_strong_zero l3 _ hdrop).1)

/-- C5 witness at concrete inputs: materialize 42, drop the single
owning handle, and the observer's upgrade returns `None`. -/
theorem claim_C5_witness :
    (upgradeSt (applyOps (applyOps
      ({ strong := 1, weakCnt := 2, slot := some 42, dtors := 0, freed := false } : St Nat)
      [Op.dropStrong]) [Op.upg])).1 = none :=
  claim_C5 Nat 42 [Op.cloneWeak] [Op.dropStrong] [Op.upg] (some 42)
    { strong := 1, weakCnt := 2, slot := some 42, dtors := 0, freed := false }
    (by decide) (by decide)

/-- C6: dropping a `MaybeRc<T>` / `MaybeArc<T>` without calling
materialize (the drop of the cell is the drop of its one weak field)
never invokes `T`'s destructor: after any observer-handle traffic `l1`
before the drop and any operation sequence `l2` after it, the
destructor counter is still zero. -/
theorem claim_C6 (T : Type) (l1 l2 : List Op) :
    (applyOps (dropWeakSt (applyOps (MaybeRc.newSt T) l1)) l2).dtors = 0 ∧
      (applyOps (dropWeakSt (applyOps (MaybeArc.newSt T) l1)) l2).dtors = 0 := by
  have h1 := applyOps_of_strong_zero l1 (MaybeRc.newSt T) rfl
  have h2 := dropWeakSt_preserves (applyOps (MaybeRc.newSt T) l1)
  have h3 := applyOps_of_strong_zero l2 (dropWeakSt (applyOps (MaybeRc.newSt T) l1))
    (h2.1.trans h1.1)
  constructor
  · rw [h3.2.2, h2.2.2, h1.2.2]; rfl
  · rw [show MaybeArc.newSt T = MaybeRc.newSt T from rfl]
    rw [h3.2.2, h2.2.2, h1.2.2]; rfl

/-- C7: `materialize` never fails and never panics: from every
allocation state the internal `upgrade().unwrap()` step succeeds
(`materializeSt` always returns `some`), for `MaybeRc` and `MaybeArc`
alike; all other modelled operations are total functions with no panic
point. -/
theorem claim_C7 (T : Type) (s : St T) (v : T) :
    (MaybeRc.materializeSt s v).isSome = true ∧
      (MaybeArc.materializeSt s v).isSome = true := by
  constructor
  · rw [materializeSt_rc_eq]; rfl
  · rw [materializeSt_arc_eq_rc, materializeSt_rc_eq]; rfl

/-- C3: `try_new_cyclic_rc` with a constructor returning failure `e`
(performing any handle traffic `fops`) yields exactly `Err(e)`; no
value of type `T` is ever stored (the slot stays empty) or destructed
(the destructor counter stays zero); upgrades fail at every state
reachable during the constructor's run (`fpre`), and every upgrade
after the call returns, reached by any further operation sequence `l2`,
also returns `None`. -/
theorem claim_C3 (T E : Type) (e : E) (fops : List Op) :
    (tryNewCyclicRc (T := T) (Except.error e) fops).1 = Except.error e ∧
      (tryNewCyclicRc (T := T) (Except.error e) fops).2.strong = 0 ∧
      (tryNewCyclicRc (T := T) (Except.error e) fops).2.slot = none ∧
      (tryNewCyclicRc (T := T) (Except.error e) fops).2.dtors = 0 ∧
      (∀ fpre : List Op,
        (upgradeSt (applyOps (downgradeSt (newCyclicAlloc T)) fpre)).1 = none) ∧
      (∀ l2 : List Op,
        (upgradeSt (applyOps (tryNewCyclicRc (T := T) (Except.error e) fops).2 l2)).1 =
          none) := by
  have h1 := applyOps_of_strong_zero fops (downgradeSt (newCyclicAlloc T)) rfl
  have h2 := dropWeakSt_preserves (applyOps (downgradeSt (newCyclicAlloc T)) fops)
  have h3 := errorPath_state (dropWeakSt (applyOps (downgradeSt (newCyclicAlloc T)) fops))
    (h2.1.trans h1.1)
  have hfin : tryNewCyclicRc (T := T) (Except.error e) fops =
      (Except.error e, dropStrongUninit (incStrong
        (dropWeakSt (applyOps (downgradeSt (newCyclicAlloc T)) fops)))) := rfl
  rw [hfin]
  refine ⟨rfl, h3.1, ?_, ?_, ?_, ?_⟩
  · rw [h3.2.1, h2.2.1, h1.2.1]; rfl
  · rw [h3.2.2, h2.2.2, h1.2.2]; rfl
  · intro fpre
    exact upgradeSt_of_strong_zero _ ((applyOps_of_strong_zero fpre _ rfl).1)
  · intro l2
    exact upgradeSt_of_strong_zero _ ((applyOps_of_strong_zero l2 _ h3.1).1)

/-- C4: `try_new_cyclic_rc` with a constructor returning success `t`
(performing any handle traffic `fops`) returns an owning handle
pointing at `t` with the allocation live (strong count 1, slot holding
`t`); any observer handle captured mid-construction subsequently
upgrades successfully to the same value, after any further operation
sequence `l2` that drops no owning handle; and the pointer handed to
the constructor equals the pointer of the returned owning handle (same
allocation). -/
theorem claim_C4 (T E : Type) (t : T) (fops : List Op) :
    (tryNewCyclicRc (E := E) (Except.ok t) fops).1 = Except.ok (some t) ∧
      (tryNewCyclicRc (E := E) (Except.ok t) fops).2.strong = 1 ∧
      (tryNewCyclicRc (E := E) (Except.ok t) fops).2.slot = some t ∧
      (∀ l2 : List Op, (∀ o ∈ l2, o ≠ Op.dropStrong) →
        (upgradeSt (applyOps (tryNewCyclicRc (E := E) (Except.ok t) fops).2 l2)).1 =
          some (some t)) ∧
      (∀ p : Nat, ((tryNewCyclicPtrs T p).1).asPtr = ((tryNewCyclicPtrs T p).2).asPtr) := by
  have h1 := applyOps_of_strong_zero fops (downgradeSt (newCyclicAlloc T)) rfl
  have h2 := dropWeakSt_preserves (applyOps (downgradeSt (newCyclicAlloc T)) fops)
  have hfin : tryNewCyclicRc (E := E) (Except.ok t) fops =
      (Except.ok (incStrong { dropWeakSt (applyOps (downgradeSt (newCyclicAlloc T)) fops)
          with slot := some t }).slot,
       incStrong { dropWeakSt (applyOps (downgradeSt (newCyclicAlloc T)) fops)
          with slot := some t }) := rfl
  rw [hfin]
  have hstrong :
      (incStrong { dropWeakSt (applyOps (downgradeSt (newCyclicAlloc T)) fops)
        with slot := some t }).strong = 1 := by
    simp only [incStrong]
    rw [h2.1.trans h1.1]
  refine ⟨rfl, hstrong, rfl, ?_, fun p => rfl⟩
  intro l2 hl2
  have hlive := applyOps_keeps_live l2 _ t hl2 (hstrong ▸ Nat.one_pos) rfl
  exact upgradeSt_of_live _ t hlive.1 hlive.2

/-- C4 witness at concrete inputs: a constructor keeping one extra
observer handle and returning 42 yields `Ok` of a handle to 42, the
observer upgrades to 42 after one further upgrade call, and the pointer
pair agrees at address 7. -/
theorem claim_C4_witness :
    (tryNewCyclicRc (E := Unit) (Except.ok 42) [Op.cloneWeak]).1 = Except.ok (some 42) ∧
      (tryNewCyclicRc (E := Unit) (Except.ok 42) [Op.cloneWeak]).2.strong = 1 ∧
      (tryNewCyclicRc (E := Unit) (Except.ok 42) [Op.cloneWeak]).2.slot = some 42 ∧
      (upgradeSt (applyOps (tryNewCyclicRc (E := Unit) (Except.ok 42) [Op.cloneWeak]).2
        [Op.upg])).1 = some (some 42) ∧
      ((tryNewCyclicPtrs Nat 7).1).asPtr = ((tryNewCyclicPtrs Nat 7).2).asPtr := by
  have h := claim_C4 Nat Unit 42 [Op.cloneWeak]
  exact ⟨h.1, h.2.1, h.2.2.1, h.2.2.2.1 [Op.upg] (by decide), h.2.2.2.2 7⟩

/-- C9: the three implementations (the transmute-based `MaybeRc` in
lib.rs, the upgrade-and-forget `MaybeRc` in rc.rs, and the `MaybeArc`
in arc.rs) are observationally equivalent: every client program (any
sequence of handle operations and materialize calls, run from any
state) produces the same observation list and the same final allocation
state — in particular the same upgrade outcomes, returned values, and
destructor invocations — and the `new` constructions coincide. -/
theorem claim_C9 (T : Type) :
    (∀ (os : Option (St T)) (tr : List (TOp T)),
      runVar MaybeRc.materializeSt os tr =
          runVar (fun s v => some (MaybeRcLib.materializeSt s v)) os tr ∧
        runVar MaybeRc.materializeSt os tr = runVar MaybeArc.materializeSt os tr) ∧
      MaybeRc.newSt T = MaybeRcLib.newSt T ∧ MaybeRc.newSt T = MaybeArc.newSt T := by
  have hfn : (MaybeRc.materializeSt : St T → T → Option (Option T × St T)) =
      fun s v => some (MaybeRcLib.materializeSt s v) := by
    funext s v
    rw [materializeSt_rc_eq, materializeSt_lib_eq]
  refine ⟨fun os tr => ⟨?_, ?_⟩, rfl, rfl⟩
  · rw [hfn]
  · rw [materializeSt_arc_eq_rc]

/-- C10: every observer handle returned by `downgrade` (and any clone
of it) refers to the same allocation as the owning handle returned by
`materialize`: the pointer-level data flow of both methods starts from
the cell's single stored weak handle and passes only through
address-preserving steps (clone, upgrade, transmute), for `MaybeRc` and
`MaybeArc` alike. -/
theorem claim_C10 (T : Type) (c : MaybeRcH T) (a : MaybeArcH T) :
    (c.downgradeH).asPtr = (c.materializeH).asPtr ∧
      (c.downgradeH.cloneH).asPtr = (c.materializeH).asPtr ∧
      (a.downgradeH).asPtr = (a.materializeH).asPtr ∧
      (a.downgradeH.cloneH).asPtr = (a.materializeH).asPtr :=
  ⟨rfl, rfl, rfl, rfl⟩
